import Mathlib

/-
Verification of the DebateLens inference core:
a shallow embedding of `src/workers/inference.worker.ts` (task scheduler,
model-pipeline manager, two-stage streaming fact-check) and of the consumer
merge logic in `src/components/DebateLens.tsx` (verdict parsing, transcript
updates), together with proofs of the documented properties.

Strings are modelled as `List Char`; the JavaScript string operations used by
the source (`trim`, `toUpperCase`, `toLowerCase`, `includes`, `split(/\s+/)`,
and the verdict regular expression) are given explicit executable definitions
matching JS semantics on the character sets the source manipulates.
-/

namespace DebateLens

/-! ## JavaScript string primitives -/

/-- Strings as explicit character lists. -/
abbrev Str := List Char

/-- Coerce a Lean string literal to the character-list representation. -/
def str (s : String) : Str := s.data

/-- JS whitespace (the `\s` class and the characters stripped by `trim`):
space, tab, line feed, vertical tab, form feed, carriage return, NBSP,
BOM and the Unicode space/line separators. -/
def jsWs (c : Char) : Bool :=
  c = ' ' || c = '\t' || c = '\n' || c = '\r' ||
  c.toNat = 11 || c.toNat = 12 || c.toNat = 160 || c.toNat = 65279 ||
  c.toNat = 0x1680 || (0x2000 ≤ c.toNat && c.toNat ≤ 0x200a) ||
  c.toNat = 0x2028 || c.toNat = 0x2029 || c.toNat = 0x202f ||
  c.toNat = 0x205f || c.toNat = 0x3000

/-- JS line terminators (excluded by `.` in a regex without the `s` flag). -/
def jsLineTerm (c : Char) : Bool :=
  c = '\n' || c = '\r' || c.toNat = 0x2028 || c.toNat = 0x2029

/-- ASCII uppercase fold, as applied by `toUpperCase` to the ASCII strings
the source compares. -/
def upperChar (c : Char) : Char :=
  if 'a' ≤ c ∧ c ≤ 'z' then Char.ofNat (c.toNat - 32) else c

/-- ASCII lowercase fold, as applied by `toLowerCase` and the `i` regex flag. -/
def lowerChar (c : Char) : Char :=
  if 'A' ≤ c ∧ c ≤ 'Z' then Char.ofNat (c.toNat + 32) else c

/-- Uppercase an entire string (`toUpperCase`). -/
def upperL (l : Str) : Str := l.map upperChar

/-- Lowercase an entire string (`toLowerCase`). -/
def lowerL (l : Str) : Str := l.map lowerChar

/-- Is the first list a prefix of the second (executable)? -/
def prefOf : Str → Str → Bool
  | [], _ => true
  | _ :: _, [] => false
  | a :: as, b :: bs => a = b && prefOf as bs

/-- JS `includes`: does `l` contain `sub` as a contiguous substring? -/
def containsSub : Str → Str → Bool
  | [], sub => sub.isEmpty
  | l@(_ :: t), sub => prefOf sub l || containsSub t sub

/-- JS `trim`: strip whitespace from both ends. -/
def trimL (l : Str) : Str :=
  ((l.dropWhile jsWs).reverse.dropWhile jsWs).reverse

/-! ## Task scheduler (inference.worker.ts, lines 58–80 and 191–201)

The worker keeps two queues (`transcriptionQueue`, `factCheckQueue`), a
`isProcessing` flag, and a `processQueue` drain that prefers transcription
work. The scheduler state is polymorphic in the queued payload. -/

/-- Task kinds, the worker's `'transcribe' | 'fact-check'` discriminator. -/
inductive TaskKind : Type
  | transcribe : TaskKind
  | factCheck : TaskKind
deriving DecidableEq, Repr

/-- Scheduler state: the two queues and the `isProcessing` flag. -/
structure SchedState (α : Type) where
  tq : List α
  fq : List α
  busy : Bool
deriving Repr

/-- Capacity bound of the fact-check queue (`MAX_FACT_CHECK_QUEUE_SIZE`). -/
def MAX_FACT_CHECK_QUEUE_SIZE : Nat := 2

/-- The drain step `processQueue`: a no-op while busy; otherwise shift the
head of the transcription queue if any, else the head of the fact-check
queue, marking the scheduler busy and returning the selected task. -/
def processQueue {α : Type} (s : SchedState α) :
    SchedState α × Option (TaskKind × α) :=
  if s.busy then (s, none)
  else
    match s.tq with
    | d :: rest => ({ s with tq := rest, busy := true }, some (TaskKind.transcribe, d))
    | [] =>
      match s.fq with
      | d :: rest => ({ s with fq := rest, busy := true }, some (TaskKind.factCheck, d))
      | [] => (s, none)

/-- The `'transcribe'` message handler's queue update: unconditional append. -/
def pushTranscribe {α : Type} (d : α) (s : SchedState α) : SchedState α :=
  { s with tq := s.tq ++ [d] }

/-- The `'fact-check'` message handler's queue update: shift the oldest
pending item when the queue is at capacity, then append. -/
def pushFactCheck {α : Type} (d : α) (s : SchedState α) : SchedState α :=
  { s with fq :=
      (if MAX_FACT_CHECK_QUEUE_SIZE ≤ s.fq.length then s.fq.tail else s.fq) ++ [d] }

/-- The full `'transcribe'` message handler: push, then drain. -/
def onTranscribe {α : Type} (d : α) (s : SchedState α) :
    SchedState α × Option (TaskKind × α) :=
  processQueue (pushTranscribe d s)

/-- The full `'fact-check'` message handler: push (leaky), then drain. -/
def onFactCheck {α : Type} (d : α) (s : SchedState α) :
    SchedState α × Option (TaskKind × α) :=
  processQueue (pushFactCheck d s)

/-- The `finally` block followed by the scheduled `setTimeout(processQueue, 0)`:
clear the busy flag, then drain again. -/
def finishTask {α : Type} (s : SchedState α) :
    SchedState α × Option (TaskKind × α) :=
  processQueue { s with busy := false }

/-- Scheduler configuration instrumented with a ghost count of tasks that
have been started but not yet finished. -/
structure Config (α : Type) where
  st : SchedState α
  inFlight : Nat

/-- Fold a drain result into a configuration: a selected task is a start. -/
def afterDrain {α : Type} (r : SchedState α × Option (TaskKind × α)) (n : Nat) :
    Config α :=
  ⟨r.1, n + (if r.2.isSome then 1 else 0)⟩

/-- The worker's initial configuration: both queues empty, not busy. -/
def initConfig (α : Type) : Config α := ⟨⟨[], [], false⟩, 0⟩

/-- Events of the worker's event loop: task submission (push + drain), a
bare scheduled drain, and completion of the running task (the `finally`
block; the subsequent `setTimeout` drain arrives later as `drainTick`). -/
inductive SchedStep {α : Type} : Config α → Config α → Prop
  | submitT (d : α) (s : SchedState α) (n : Nat) :
      SchedStep ⟨s, n⟩ (afterDrain (onTranscribe d s) n)
  | submitF (d : α) (s : SchedState α) (n : Nat) :
      SchedStep ⟨s, n⟩ (afterDrain (onFactCheck d s) n)
  | drainTick (s : SchedState α) (n : Nat) :
      SchedStep ⟨s, n⟩ (afterDrain (processQueue s) n)
  | finish (s : SchedState α) (n : Nat) : 1 ≤ n →
      SchedStep ⟨s, n⟩ ⟨{ s with busy := false }, n - 1⟩

/-- Reachable configurations of the worker's event loop. -/
inductive Reach {α : Type} : Config α → Prop
  | init : Reach (initConfig α)
  | step {c c' : Config α} : Reach c → SchedStep c c' → Reach c'

/-- The scheduler invariant: at most one task in flight, the busy flag
tracks it exactly, and the fact-check queue holds at most two items. -/
def SchedInv {α : Type} (c : Config α) : Prop :=
  c.inFlight ≤ 1 ∧ (c.st.busy = true ↔ c.inFlight = 1) ∧
    c.st.fq.length ≤ MAX_FACT_CHECK_QUEUE_SIZE

/-! ## Worker messages -/

/-- Model kinds: the speech-to-text model and the language model. -/
inductive MKind : Type
  | stt : MKind
  | llm : MKind
deriving DecidableEq, Repr

/-- The task-kind label attached to per-task error messages (the worker's
`type` string `'transcribe'` / `'fact-check'`). -/
def TaskKind.label : TaskKind → Str
  | TaskKind.transcribe => str "transcribe"
  | TaskKind.factCheck => str "fact-check"

/-- Messages posted by the worker (`self.postMessage` payloads). -/
inductive WMsg : Type
  | transcription (text : Str) (id : Str) (speaker : Str)
  | factCheckStream (id : Str) (text : Str) (isDone : Bool)
  | errorTask (id : Str) (task : TaskKind) (message : Str)
  | progress (model : MKind) (value : ℚ)
  | ready
  | errorGlobal (message : Str)
deriving DecidableEq, Repr

/-- Task id carried by a message, if any. -/
def WMsg.taskId : WMsg → Option Str
  | WMsg.transcription _ id _ => some id
  | WMsg.factCheckStream id _ _ => some id
  | WMsg.errorTask id _ _ => some id
  | _ => none

/-- Is this message a terminal fact-check fragment for the given id? -/
def WMsg.isTerminalFor (id : Str) : WMsg → Bool
  | WMsg.factCheckStream i _ d => i = id && d
  | _ => false

/-! ## Fact-check and transcription task execution
(inference.worker.ts, lines 83–170) -/

/-- Classification reduction (line 111):
`classificationResult[0].generated_text.toUpperCase().includes('YES')`. -/
def isClaimText (c : Str) : Bool := containsSub (upperL c) (str "YES")

/-- Environment of one fact-check task: the opaque LLM's behaviour. The
classification generation either throws or returns the generated text;
the verification generation delivers `tokens` to the streamer callback in
order and then either completes or throws (`genError`). Model acquisition
failures are absorbed into `classification`. -/
structure FCEnv : Type where
  classification : Except Str Str
  tokens : List Str
  genError : Option Str

/-- The streamer callback loop (lines 134–146): each token is appended to
the `fullResponse` accumulator and a non-terminal fragment carrying the
whole accumulator is posted. -/
def streamAux (id : Str) (acc : Str) : List Str → List WMsg
  | [] => []
  | t :: rest =>
    WMsg.factCheckStream id (acc ++ t) false :: streamAux id (acc ++ t) rest

/-- Non-terminal fragments emitted during verification of task `id`. -/
def streamMsgs (id : Str) (tokens : List Str) : List WMsg :=
  streamAux id [] tokens

/-- The accumulator value after folding a token list onto `acc`. -/
def fullResponseAux (acc : Str) : List Str → Str
  | [] => acc
  | t :: rest => fullResponseAux (acc ++ t) rest

/-- The final `fullResponse` accumulator. -/
def fullResponse (tokens : List Str) : Str := fullResponseAux [] tokens

/-- Execution of one fact-check task (lines 92–161 plus the catch at
163–165): classification, the NOT_A_CLAIM short-circuit on a non-claim,
otherwise streamed verification ending in a terminal fragment; a thrown
error is reported as a per-task error message in lieu of any terminal
fragment. -/
def runFactCheckTask (id : Str) (env : FCEnv) : List WMsg :=
  match env.classification with
  | Except.error m => [WMsg.errorTask id TaskKind.factCheck m]
  | Except.ok c =>
    if isClaimText c then
      match env.genError with
      | none =>
        streamMsgs id env.tokens ++
          [WMsg.factCheckStream id (fullResponse env.tokens) true]
      | some m =>
        streamMsgs id env.tokens ++ [WMsg.errorTask id TaskKind.factCheck m]
    else
      [WMsg.factCheckStream id (str "NOT_A_CLAIM") true]

/-- Environment of one transcription task: the STT call either returns the
transcribed text or throws. -/
structure TEnv : Type where
  result : Except Str Str

/-- Execution of one transcription task (lines 84–91 plus the catch). -/
def runTranscribeTask (id speaker : Str) (env : TEnv) : List WMsg :=
  match env.result with
  | Except.ok t => [WMsg.transcription t id speaker]
  | Except.error m => [WMsg.errorTask id TaskKind.transcribe m]

/-! ## Model pipeline manager (inference.worker.ts, lines 19–56)

One memoized handle per model kind; `getSTT` and `getLLM` are textually
identical up to the constructed model, so a single `Handle` is modelled.
A promise is represented by the number of the construction it belongs to;
`nextCtor` counts `pipeline(...)` constructions started so far, and a
settlement environment maps each construction to its eventual outcome. -/

/-- The `sttInstance`/`sttPromise` (resp. `llmInstance`/`llmPromise`)
pair of static fields, plus the ghost construction counter. -/
structure Handle : Type where
  inst : Option Nat
  prom : Option Nat
  nextCtor : Nat
deriving DecidableEq, Repr

/-- The initial handle: both fields `null`. -/
def Handle.start : Handle := ⟨none, none, 0⟩

/-- The body of `getSTT`/`getLLM`: return the memoized instance if set,
else the stored in-flight promise if set, else begin a new construction
and store its promise. Returns the promise the caller awaits. -/
def acquire (h : Handle) : Handle × Nat :=
  match h.inst with
  | some i => (h, i)
  | none =>
    match h.prom with
    | some p => (h, p)
    | none =>
      ({ inst := none, prom := some h.nextCtor, nextCtor := h.nextCtor + 1 },
       h.nextCtor)

/-- Settlement of the pending construction. On fulfilment the `.then`
continuation stores the instance; on rejection no handler runs (the code
installs no rejection handler), so the stored promise remains the rejected
one and the instance stays unset. -/
def settle (h : Handle) (outcome : Except Str Unit) : Handle :=
  match h.prom with
  | some p =>
    match outcome with
    | Except.ok _ => { h with inst := some p }
    | Except.error _ => h
  | none => h

/-! ## Progress reporting (inference.worker.ts, lines 177–181) -/

/-- A raw progress event delivered by the `pipeline` constructor: a status
string and, for numeric progress events, the percentage value. -/
structure RawProgress : Type where
  status : Str
  progressValue : ℚ
deriving DecidableEq, Repr

/-- The worker's `reportProgress` callback: forward only events whose
status is `'progress'`, tagged with the model kind being loaded. -/
def reportProgress (model : MKind) (e : RawProgress) : Option WMsg :=
  if e.status = str "progress" then some (WMsg.progress model e.progressValue)
  else none

/-- Modelled from the spec: the normalization the spec describes for
`onProgress` (an `initiate` event maps to percent 0, a numeric progress
event to its value, a `done` event to 100), stated for comparison with the
code's `reportProgress`. -/
def reportProgressSpec (model : MKind) (e : RawProgress) : Option WMsg :=
  if e.status = str "initiate" then some (WMsg.progress model 0)
  else if e.status = str "progress" then
    some (WMsg.progress model e.progressValue)
  else if e.status = str "done" then some (WMsg.progress model 100)
  else none

/-! ## Consumer-side transcript state (DebateLens.tsx) -/

/-- Speakers. -/
inductive Speaker : Type
  | A : Speaker
  | B : Speaker
deriving DecidableEq, Repr

/-- Verdict kinds, the `factCheck.verdict` literal union. -/
inductive Verdict : Type
  | True : Verdict
  | False : Verdict
  | Unverified : Verdict
  | NOT_A_CLAIM : Verdict
deriving DecidableEq, Repr

/-- The `factCheck` field of a transcript record. -/
structure FactCheckVerdict : Type where
  verdict : Verdict
  explanation : Str
deriving DecidableEq, Repr

/-- A transcript record (the `Transcript` interface, lines 14–24). -/
structure Transcript : Type where
  id : Str
  text : Str
  speaker : Speaker
  isChecking : Bool
  timestamp : Nat
  factCheck : Option FactCheckVerdict
deriving DecidableEq, Repr

/-! ## The verdict regular expression
`/\[?(True|False|Unverified)\]?[:\s|]*-?\s*(.*)/i` (line 134).

JS `match` finds the leftmost match. At a start position the engine first
consumes a leading `[` if present (greedy `\[?`); a verdict token never
starts with `[`, so the bracketed and plain attempts never compete. Every
piece after the token can match the empty string, so once the token
matches, the whole regex matches with greedy maximal consumption. -/

/-- Case-insensitive match of one verdict token at the head of the string;
returns the normalized (capitalized) verdict and the rest. -/
def matchVerdictToken (s : Str) : Option (Verdict × Str) :=
  if lowerL (s.take 4) = str "true" then some (Verdict.True, s.drop 4)
  else if lowerL (s.take 5) = str "false" then some (Verdict.False, s.drop 5)
  else if lowerL (s.take 10) = str "unverified" then
    some (Verdict.Unverified, s.drop 10)
  else none

/-- The regex tail `\]?[:\s|]*-?\s*` followed by the capture `(.*)`, which
extends to the end of the line (`.` does not match line terminators). -/
def afterToken (s : Str) : Str :=
  let s1 := match s with
    | ']' :: rest => rest
    | _ => s
  let s2 := s1.dropWhile (fun c => c = ':' || jsWs c || c = '|')
  let s3 := match s2 with
    | '-' :: rest => rest
    | _ => s2
  let s4 := s3.dropWhile jsWs
  s4.takeWhile (fun c => !jsLineTerm c)

/-- One attempt of the regex at the current start position: the engine
first consumes a leading `[` if present (greedy `\[?`; no token starts
with `[`, so the bracketed and plain attempts never compete), then the
verdict token, then the regex tail. -/
def tryHere : Str → Option (Verdict × Str)
  | [] => none
  | c :: rest =>
    match if c = '[' then matchVerdictToken rest
          else matchVerdictToken (c :: rest) with
    | some (v, r) => some (v, afterToken r)
    | none => none

/-- Leftmost-match search for the verdict regex: returns the normalized
verdict (capture 1) and the captured remainder (capture 2). -/
def verdictSearch : Str → Option (Verdict × Str)
  | [] => none
  | c :: rest =>
    match tryHere (c :: rest) with
    | some r => some r
    | none => verdictSearch rest

/-! ## Consumer merge (DebateLens.tsx, lines 97–157 and 214–224) -/

/-- Update applied by `handleFactCheckStream` to the transcript record
whose id matches the fragment (lines 123–153): the short NOT_A_CLAIM check
first, then the structured verdict match, then the fallback. -/
def applyFragment (result : Str) (isDone : Bool) (t : Transcript) :
    Transcript :=
  let trimmedResult := trimL result
  if containsSub (upperL trimmedResult) (str "NOT_A_CLAIM") &&
      decide (trimmedResult.length < 20) then
    { t with isChecking := !isDone,
             factCheck :=
               if isDone then some ⟨Verdict.NOT_A_CLAIM, []⟩ else none }
  else
    match verdictSearch result with
    | some (v, rest) =>
      { t with isChecking := !isDone,
               factCheck := some ⟨v,
                 if trimL rest = [] then str "Analyzing..." else trimL rest⟩ }
    | none =>
      { t with isChecking := !isDone,
               factCheck := some ⟨Verdict.Unverified, result⟩ }

/-- The `handleFactCheckStream` callback (lines 120–157): map the matching
record through `applyFragment`, leaving every other record unchanged. -/
def handleFactCheckStream (result id : Str) (isDone : Bool)
    (prev : List Transcript) : List Transcript :=
  prev.map (fun t => if t.id = id then applyFragment result isDone t else t)

/-- The per-task error branch of the worker `onmessage` handler
(lines 215–218): the matching record gets verdict Unverified with an
`Error:`-prefixed explanation and leaves the checking state. -/
def applyWorkerError (id message : Str) (prev : List Transcript) :
    List Transcript :=
  prev.map (fun t =>
    if t.id = id then
      { t with isChecking := false,
               factCheck :=
                 some ⟨Verdict.Unverified, str "Error: " ++ message⟩ }
    else t)

/-! ## The three-word gate (DebateLens.tsx, lines 97–118) -/

mutual

/-- Token accumulation phase of `split(/\s+/)`: extend the current piece
until whitespace, then emit it and skip the separator run. -/
def splitGo (cur : Str) : Str → List Str
  | [] => [cur.reverse]
  | c :: rest =>
    if jsWs c then cur.reverse :: splitSkip rest else splitGo (c :: cur) rest

/-- Separator-skipping phase of `split(/\s+/)`; a separator run at the very
end of the string yields a final empty piece, as in JS. -/
def splitSkip : Str → List Str
  | [] => [[]]
  | c :: rest => if jsWs c then splitSkip rest else splitGo [c] rest

end

/-- JS `split(/\s+/)`: the pieces between maximal whitespace runs (the
empty string yields one empty piece, as in JS). -/
def splitWs (l : Str) : List Str := splitGo [] l

/-- The `wordCount` of line 98: `text.trim().split(/\s+/).length`. -/
def wordCount (text : Str) : Nat := (splitWs (trimL text)).length

/-- Number of whitespace-delimited words of a text, as the claim counts
them: the nonempty pieces of the whitespace split. -/
def specWordCount (text : Str) : Nat :=
  ((splitWs (trimL text)).filter (fun w => !w.isEmpty)).length

/-- The `handleTranscription` callback (lines 97–118): discard transcripts
below the word gate; otherwise append exactly one new checking record and
submit exactly one fact-check task with the same text and id. The returned
option is the posted `{type:'fact-check', data:{text, id}}` message. -/
def handleTranscription (text id : Str) (speaker : Speaker) (now : Nat)
    (prev : List Transcript) : List Transcript × Option (Str × Str) :=
  if wordCount text < 3 then (prev, none)
  else (prev ++ [⟨id, text, speaker, true, now, none⟩], some (text, id))

/-! ## Auxiliary predicates used by the statements -/

/-- Does this fact-check environment make the task throw? Either the
classification generation throws, or the task is a claim and the
verification generation throws (a non-claim short-circuits before the
verification step, so its `genError` is never reached). -/
def FCEnv.throws (env : FCEnv) : Bool :=
  match env.classification with
  | Except.error _ => true
  | Except.ok c => isClaimText c && env.genError.isSome

/-- The lowercase spelling of each verdict token of the regex alternation. -/
def verdictTokenChars : Verdict → Str
  | Verdict.True => str "true"
  | Verdict.False => str "false"
  | Verdict.Unverified => str "unverified"
  | Verdict.NOT_A_CLAIM => []

/-- Does the string avoid starting with whitespace? -/
def headNotWs : Str → Bool
  | [] => true
  | c :: _ => !jsWs c

/-- Does the string avoid ending with whitespace? -/
def lastNotWs : Str → Bool
  | [] => true
  | [c] => !jsWs c
  | _ :: c :: rest => lastNotWs (c :: rest)

/-! ## Lemmas -/

theorem processQueue_of_busy {α : Type} (s : SchedState α) (h : s.busy = true) :
    processQueue s = (s, none) := by
  simp [processQueue, h]

theorem processQueue_start {α : Type} (s : SchedState α)
    (h : (processQueue s).2.isSome) :
    s.busy = false ∧ (processQueue s).1.busy = true := by
  by_cases hb : s.busy = true
  · rw [processQueue_of_busy s hb] at h; simp at h
  · simp only [Bool.not_eq_true] at hb
    refine ⟨hb, ?_⟩
    unfold processQueue
    simp only [hb, Bool.false_eq_true, if_false]
    match htq : s.tq with
    | d :: rest => simp
    | [] =>
      match hfq : s.fq with
      | d :: rest => simp
      | [] =>
        unfold processQueue at h
        simp [hb, htq, hfq] at h

theorem processQueue_no_start {α : Type} (s : SchedState α)
    (h : (processQueue s).2 = none) : (processQueue s).1 = s := by
  unfold processQueue at h ⊢
  by_cases hb : s.busy = true
  · simp [hb]
  · simp only [Bool.not_eq_true] at hb
    match htq : s.tq with
    | d :: rest => simp [hb, htq] at h
    | [] =>
      match hfq : s.fq with
      | d :: rest => simp [hb, htq, hfq] at h
      | [] => simp [hb, htq, hfq]

theorem processQueue_fq_len {α : Type} (s : SchedState α) :
    (processQueue s).1.fq.length ≤ s.fq.length := by
  unfold processQueue
  by_cases hb : s.busy = true
  · simp [hb]
  · simp only [Bool.not_eq_true] at hb
    match htq : s.tq with
    | d :: rest => simp [hb]
    | [] =>
      match hfq : s.fq with
      | d :: rest => simp [hb, hfq]
      | [] => simp [hb, hfq]

theorem processQueue_factCheck_only_if_tq_empty {α : Type}
    (s : SchedState α) (d : α)
    (h : (processQueue s).2 = some (TaskKind.factCheck, d)) : s.tq = [] := by
  unfold processQueue at h
  by_cases hb : s.busy = true
  · simp [hb] at h
  · simp only [Bool.not_eq_true] at hb
    match htq : s.tq with
    | e :: rest => simp [hb, htq] at h
    | [] => rfl

theorem processQueue_tq {α : Type} (s : SchedState α) :
    (processQueue s).1.tq = s.tq ∨
      ∃ d, s.tq = d :: (processQueue s).1.tq ∧
        (processQueue s).2 = some (TaskKind.transcribe, d) := by
  unfold processQueue
  by_cases hb : s.busy = true
  · simp [hb]
  · simp only [Bool.not_eq_true] at hb
    match htq : s.tq with
    | d :: rest => right; exact ⟨d, by simp [hb, htq]⟩
    | [] =>
      match hfq : s.fq with
      | d :: rest => simp [hb, htq, hfq]
      | [] => simp [hb, htq, hfq]

theorem pushFactCheck_len {α : Type} (d : α) (s : SchedState α)
    (h : s.fq.length ≤ MAX_FACT_CHECK_QUEUE_SIZE) :
    (pushFactCheck d s).fq.length ≤ MAX_FACT_CHECK_QUEUE_SIZE := by
  unfold pushFactCheck MAX_FACT_CHECK_QUEUE_SIZE at *
  by_cases h2 : 2 ≤ s.fq.length
  · have htail : s.fq.tail.length = s.fq.length - 1 := List.length_tail s.fq
    simp only [if_pos h2, List.length_append, List.length_cons,
      List.length_nil, htail]
    omega
  · simp only [if_neg h2, List.length_append, List.length_cons,
      List.length_nil]
    omega

theorem afterDrain_inv {α : Type} (s : SchedState α) (n : Nat)
    (h1 : n ≤ 1) (h2 : s.busy = true ↔ n = 1)
    (h3 : s.fq.length ≤ MAX_FACT_CHECK_QUEUE_SIZE) :
    SchedInv (afterDrain (processQueue s) n) := by
  unfold SchedInv afterDrain
  match ho : (processQueue s).2 with
  | some p =>
    have hstart := processQueue_start s (by rw [ho]; rfl)
    have hn : n = 0 := by
      rcases h1.lt_or_eq with h | h
      · omega
      · exact absurd (h2.mpr h) (by simp [hstart.1])
    refine ⟨by simp [ho, hn], by simp [ho, hn, hstart.2], ?_⟩
    exact le_trans (processQueue_fq_len s) h3
  | none =>
    have heq := processQueue_no_start s ho
    refine ⟨by simp [ho, h1], by simp [ho, heq, h2], ?_⟩
    simp only [ho, heq]
    exact h3

theorem sched_step_inv {α : Type} {c c' : Config α}
    (h : SchedInv c) (hs : SchedStep c c') : SchedInv c' := by
  obtain ⟨h1, h2, h3⟩ := h
  cases hs with
  | submitT d s n =>
    exact afterDrain_inv (pushTranscribe d s) n h1 h2 h3
  | submitF d s n =>
    exact afterDrain_inv (pushFactCheck d s) n h1 h2 (pushFactCheck_len d s h3)
  | drainTick s n =>
    exact afterDrain_inv s n h1 h2 h3
  | finish s n hn =>
    have h1' : n ≤ 1 := h1
    have h3' : s.fq.length ≤ MAX_FACT_CHECK_QUEUE_SIZE := h3
    have hn1 : n = 1 := Nat.le_antisymm h1' hn
    refine ⟨show n - 1 ≤ 1 by omega, ?_, h3'⟩
    show ({ s with busy := false }).busy = true ↔ n - 1 = 1
    simp [hn1]

theorem reach_inv {α : Type} {c : Config α} (h : Reach c) : SchedInv c := by
  induction h with
  | init => exact ⟨by simp [initConfig], by simp [initConfig], by simp [initConfig, MAX_FACT_CHECK_QUEUE_SIZE]⟩
  | step _ hs ih => exact sched_step_inv ih hs

theorem prefOf_iff (p l : Str) : prefOf p l = true ↔ ∃ r, l = p ++ r := by
  induction p generalizing l with
  | nil => simp [prefOf]
  | cons a as ih =>
    cases l with
    | nil => simp [prefOf]
    | cons b bs =>
      simp only [prefOf, Bool.and_eq_true, decide_eq_true_eq, ih,
        List.cons_append]
      constructor
      · rintro ⟨rfl, r, rfl⟩
        exact ⟨r, rfl⟩
      · rintro ⟨r, hr⟩
        injection hr with h1 h2
        exact ⟨h1.symm, r, h2⟩

theorem containsSub_iff (l sub : Str) :
    containsSub l sub = true ↔ ∃ a b, l = a ++ sub ++ b := by
  induction l with
  | nil =>
    simp only [containsSub, List.isEmpty_iff]
    constructor
    · intro h
      exact ⟨[], [], by simp [h]⟩
    · rintro ⟨a, b, hab⟩
      rcases List.append_eq_nil.mp hab.symm with ⟨h1, -⟩
      exact (List.append_eq_nil.mp h1).2
  | cons c t ih =>
    simp only [containsSub, Bool.or_eq_true, prefOf_iff, ih]
    constructor
    · rintro (⟨r, hr⟩ | ⟨a, b, hab⟩)
      · exact ⟨[], r, by simp [hr]⟩
      · exact ⟨c :: a, b, by simp [hab]⟩
    · rintro ⟨a, b, hab⟩
      cases a with
      | nil =>
        left
        exact ⟨b, by simpa using hab⟩
      | cons x xs =>
        right
        simp only [List.cons_append, List.append_assoc] at hab
        injection hab with h1 h2
        exact ⟨xs, b, by simp [h2]⟩

theorem streamAux_length (id acc : Str) (tokens : List Str) :
    (streamAux id acc tokens).length = tokens.length := by
  induction tokens generalizing acc with
  | nil => rfl
  | cons t rest ih => simp [streamAux, ih]

theorem streamAux_getElem (id acc : Str) (tokens : List Str) (k : Nat)
    (hk : k < tokens.length) :
    (streamAux id acc tokens)[k]? =
      some (WMsg.factCheckStream id
        (fullResponseAux acc (tokens.take (k + 1))) false) := by
  induction tokens generalizing acc k with
  | nil => simp at hk
  | cons t rest ih =>
    cases k with
    | zero => simp [streamAux, fullResponseAux]
    | succ k =>
      have hk' : k < rest.length := by simpa using hk
      simp only [streamAux, List.getElem?_cons_succ, List.take_succ_cons,
        fullResponseAux]
      exact ih (acc ++ t) k hk'

theorem streamAux_taskId (id acc : Str) (tokens : List Str) (m : WMsg)
    (hm : m ∈ streamAux id acc tokens) : m.taskId = some id := by
  induction tokens generalizing acc with
  | nil => simp [streamAux] at hm
  | cons t rest ih =>
    simp only [streamAux, List.mem_cons] at hm
    rcases hm with rfl | hm
    · rfl
    · exact ih (acc ++ t) hm

theorem streamAux_not_terminal (id idq acc : Str) (tokens : List Str)
    (m : WMsg) (hm : m ∈ streamAux id acc tokens) :
    m.isTerminalFor idq = false := by
  induction tokens generalizing acc with
  | nil => simp [streamAux] at hm
  | cons t rest ih =>
    simp only [streamAux, List.mem_cons] at hm
    rcases hm with rfl | hm
    · simp [WMsg.isTerminalFor]
    · exact ih (acc ++ t) hm

theorem mapUpd_getElem_ne (f : Transcript → Transcript) (id : Str)
    (l : List Transcript) (k : Nat) (t : Transcript)
    (h : l[k]? = some t) (hne : ¬ t.id = id) :
    (l.map (fun u => if u.id = id then f u else u))[k]? = some t := by
  rw [List.getElem?_map, h]
  simp [hne]

theorem mapUpd_getElem_eq (f : Transcript → Transcript) (id : Str)
    (l : List Transcript) (k : Nat) (t : Transcript)
    (h : l[k]? = some t) (heq : t.id = id) :
    (l.map (fun u => if u.id = id then f u else u))[k]? = some (f t) := by
  rw [List.getElem?_map, h]
  simp [heq]

theorem mapUpd_id (f : Transcript → Transcript) (id : Str)
    (l : List Transcript) (h : ∀ t ∈ l, ¬ t.id = id) :
    l.map (fun t => if t.id = id then f t else t) = l := by
  induction l with
  | nil => rfl
  | cons a l ih =>
    rw [List.map_cons, if_neg (h a (List.mem_cons_self a l)),
      ih (fun t ht => h t (List.mem_cons_of_mem a ht))]

theorem headNotWs_dropWhile (l : Str) : headNotWs (l.dropWhile jsWs) = true := by
  induction l with
  | nil => rfl
  | cons c rest ih =>
    by_cases h : jsWs c = true
    · simpa [List.dropWhile_cons, h] using ih
    · simp [List.dropWhile_cons, h, headNotWs]

theorem headNotWs_append (a b : Str) (h : a ≠ []) :
    headNotWs (a ++ b) = headNotWs a := by
  cases a with
  | nil => exact absurd rfl h
  | cons c rest => rfl

theorem lastNotWs_eq (l : Str) : lastNotWs l = headNotWs l.reverse := by
  induction l with
  | nil => rfl
  | cons c rest ih =>
    cases rest with
    | nil => rfl
    | cons d ds =>
      rw [show lastNotWs (c :: d :: ds) = lastNotWs (d :: ds) from rfl, ih]
      have hne : (d :: ds).reverse ≠ [] := by simp
      have h2 : (c :: d :: ds).reverse = (d :: ds).reverse ++ [c] :=
        List.reverse_cons c (d :: ds)
      rw [h2, headNotWs_append ((d :: ds).reverse) [c] hne]

theorem lastNotWs_dropWhile (l : Str) (h : lastNotWs l = true) :
    lastNotWs (l.dropWhile jsWs) = true := by
  induction l with
  | nil => exact h
  | cons c rest ih =>
    by_cases hc : jsWs c = true
    · cases rest with
      | nil => simp [lastNotWs, hc] at h
      | cons d ds =>
        rw [List.dropWhile_cons]
        simp only [hc, if_true]
        exact ih h
    · rw [List.dropWhile_cons]
      simp only [hc, if_false]
      exact h

theorem headNotWs_trimL (l : Str) : headNotWs (trimL l) = true := by
  unfold trimL
  rw [← lastNotWs_eq]
  apply lastNotWs_dropWhile
  rw [lastNotWs_eq, List.reverse_reverse]
  exact headNotWs_dropWhile l

theorem lastNotWs_trimL (l : Str) : lastNotWs (trimL l) = true := by
  unfold trimL
  rw [lastNotWs_eq, List.reverse_reverse]
  exact headNotWs_dropWhile _

theorem split_pieces_aux :
    ∀ (n : Nat) (l : Str), l.length ≤ n →
      (∀ cur : Str, (cur ≠ [] ∨ (l ≠ [] ∧ headNotWs l = true)) →
        lastNotWs l = true → ∀ p ∈ splitGo cur l, p ≠ []) ∧
      (l ≠ [] → lastNotWs l = true → ∀ p ∈ splitSkip l, p ≠ []) := by
  intro n
  induction n with
  | zero =>
    intro l hl
    have hnil : l = [] := List.length_eq_zero.mp (Nat.le_zero.mp hl)
    subst hnil
    constructor
    · intro cur hcur _ p hp
      simp only [splitGo, List.mem_singleton] at hp
      subst hp
      rcases hcur with h | ⟨h, -⟩
      · simpa using h
      · exact absurd rfl h
    · intro h
      exact absurd rfl h
  | succ n ih =>
    intro l hl
    cases l with
    | nil =>
      constructor
      · intro cur hcur _ p hp
        simp only [splitGo, List.mem_singleton] at hp
        subst hp
        rcases hcur with h | ⟨h, -⟩
        · simpa using h
        · exact absurd rfl h
      · intro h
        exact absurd rfl h
    | cons c rest =>
      have hrest : rest.length ≤ n := by simpa using hl
      constructor
      · intro cur hcur hlast p hp
        by_cases hc : jsWs c = true
        · have hcurne : cur ≠ [] := by
            rcases hcur with h | ⟨-, hh⟩
            · exact h
            · exact absurd hh (by simp [headNotWs, hc])
          cases rest with
          | nil => simp [lastNotWs, hc] at hlast
          | cons d ds =>
            simp only [splitGo, hc, if_true, List.mem_cons] at hp
            rcases hp with rfl | hp
            · simpa using hcurne
            · exact (ih (d :: ds) hrest).2 (by simp) hlast p hp
        · simp only [splitGo, hc, if_false] at hp
          have hlast' : lastNotWs rest = true := by
            cases rest with
            | nil => rfl
            | cons d ds => exact hlast
          exact (ih rest hrest).1 (c :: cur) (Or.inl (by simp)) hlast' p hp
      · intro _ hlast p hp
        by_cases hc : jsWs c = true
        · cases rest with
          | nil => simp [lastNotWs, hc] at hlast
          | cons d ds =>
            simp only [splitSkip, hc, if_true] at hp
            exact (ih (d :: ds) hrest).2 (by simp) hlast p hp
        · simp only [splitSkip, hc, if_false] at hp
          have hlast' : lastNotWs rest = true := by
            cases rest with
            | nil => rfl
            | cons d ds => exact hlast
          exact (ih rest hrest).1 [c] (Or.inl (by simp)) hlast' p hp

theorem splitWs_pieces (l : Str) (hne : trimL l ≠ []) :
    ∀ p ∈ splitWs (trimL l), p ≠ [] :=
  (split_pieces_aux (trimL l).length (trimL l) le_rfl).1 []
    (Or.inr ⟨hne, headNotWs_trimL l⟩) (lastNotWs_trimL l)

theorem specWordCount_eq (text : Str) (hne : trimL text ≠ []) :
    specWordCount text = wordCount text := by
  unfold specWordCount wordCount
  rw [List.filter_eq_self.mpr]
  intro p hp
  have hp' := splitWs_pieces text hne p hp
  simpa [List.isEmpty_iff] using hp'

theorem trim_nil_counts (text : Str) (h : trimL text = []) :
    wordCount text = 1 ∧ specWordCount text = 0 := by
  unfold wordCount specWordCount splitWs
  rw [h]
  exact ⟨rfl, rfl⟩

theorem gate_iff (text : Str) : wordCount text < 3 ↔ specWordCount text < 3 := by
  by_cases h : trimL text = []
  · have hc := trim_nil_counts text h
    rw [hc.1, hc.2]
    simp
  · rw [specWordCount_eq text h]

theorem processQueue_no_foreign {α : Type} (s : SchedState α) (x : α)
    (htq : x ∉ s.tq) (hfq : x ∉ s.fq) :
    x ∉ (processQueue s).1.tq ∧ x ∉ (processQueue s).1.fq ∧
      ∀ k : TaskKind, (processQueue s).2 ≠ some (k, x) := by
  unfold processQueue
  by_cases hb : s.busy = true
  · simp only [hb, if_true]
    exact ⟨htq, hfq, fun k => by simp⟩
  · simp only [Bool.not_eq_true] at hb
    match htq2 : s.tq with
    | e :: etq =>
      rw [htq2] at htq
      simp only [hb, Bool.false_eq_true, if_false]
      refine ⟨fun hm => htq (List.mem_cons_of_mem e hm), hfq, fun k hk => ?_⟩
      have h2 : e = x := congrArg Prod.snd (Option.some.inj hk)
      exact htq (h2 ▸ List.mem_cons_self e etq)
    | [] =>
      match hfq2 : s.fq with
      | f :: ffq =>
        rw [hfq2] at hfq
        simp only [hb, Bool.false_eq_true, if_false]
        refine ⟨by simp, fun hm => hfq (List.mem_cons_of_mem f hm), fun k hk => ?_⟩
        have h2 : f = x := congrArg Prod.snd (Option.some.inj hk)
        exact hfq (h2 ▸ List.mem_cons_self f ffq)
      | [] =>
        simp only [hb, Bool.false_eq_true, if_false]
        exact ⟨htq, hfq, fun k => by simp⟩

theorem runFactCheckTask_taskId (id : Str) (env : FCEnv) (m : WMsg)
    (hm : m ∈ runFactCheckTask id env) : m.taskId = some id := by
  unfold runFactCheckTask at hm
  match hc : env.classification with
  | Except.error e =>
    rw [hc] at hm
    simp only [List.mem_singleton] at hm
    subst hm
    rfl
  | Except.ok c =>
    rw [hc] at hm
    by_cases hcl : isClaimText c = true
    · simp only [hcl, if_true] at hm
      match hg : env.genError with
      | none =>
        rw [hg] at hm
        rcases List.mem_append.mp hm with h | h
        · exact streamAux_taskId id [] env.tokens m h
        · simp only [List.mem_singleton] at h
          subst h
          rfl
      | some e =>
        rw [hg] at hm
        rcases List.mem_append.mp hm with h | h
        · exact streamAux_taskId id [] env.tokens m h
        · simp only [List.mem_singleton] at h
          subst h
          rfl
    · simp only [Bool.not_eq_true] at hcl
      simp only [hcl, Bool.false_eq_true, if_false, List.mem_singleton] at hm
      subst hm
      rfl

/-- C1: for every sequence of submitted tasks, at most one task is ever
executing at a time — the busy flag is true exactly while a task is in
flight — a drain step is a no-op while busy, and whenever a drain step
selects a task it selects a fact-check task only if the transcription
queue is empty, so a fact-check task never starts while any transcription
task is queued. -/
theorem C1_scheduler_invariant :
    (∀ (α : Type) (c : Config α), Reach c →
        c.inFlight ≤ 1 ∧ (c.st.busy = true ↔ c.inFlight = 1)) ∧
    (∀ (α : Type) (s : SchedState α), s.busy = true →
        processQueue s = (s, none)) ∧
    (∀ (α : Type) (s : SchedState α) (d : α),
        (processQueue s).2 = some (TaskKind.factCheck, d) → s.tq = []) := by
  refine ⟨?_, ?_, ?_⟩
  · intro α c hc
    have h := reach_inv hc
    exact ⟨h.1, h.2.1⟩
  · intro α s h
    exact processQueue_of_busy s h
  · intro α s d h
    exact processQueue_factCheck_only_if_tq_empty s d h

/-- Witness for C1 at concrete scheduler states. -/
theorem C1_scheduler_invariant_witness :
    ((initConfig Nat).inFlight ≤ 1 ∧
      ((initConfig Nat).st.busy = true ↔ (initConfig Nat).inFlight = 1)) ∧
    processQueue (SchedState.mk [1] [2] true) = (SchedState.mk [1] [2] true, none) ∧
    (SchedState.mk ([] : List Nat) [5] false).tq = [] :=
  ⟨C1_scheduler_invariant.1 Nat (initConfig Nat) Reach.init,
   C1_scheduler_invariant.2.1 Nat (SchedState.mk [1] [2] true) rfl,
   C1_scheduler_invariant.2.2 Nat (SchedState.mk [] [5] false) 5 (by decide)⟩

/-- C2: the fact-check queue holds at most 2 pending items in every
reachable state; submitting a fact-check task while 2 are queued removes
the oldest queued item and appends the new one, touching only the
fact-check queue (never the transcription queue or the running task); the
dropped item is not selected and is in no queue afterwards, and every
message a fact-check run emits carries the running task's id, so no event
of any kind is emitted for the dropped item's id; the transcription queue
is unbounded FIFO: submission appends, and the drain removes only the
head, precisely by starting it. -/
theorem C2_bounded_leaky_queue :
    (∀ (α : Type) (c : Config α), Reach c →
        c.st.fq.length ≤ MAX_FACT_CHECK_QUEUE_SIZE) ∧
    (∀ (α : Type) (s : SchedState α) (a b d : α), s.fq = [a, b] →
        (pushFactCheck d s).fq = [b, d] ∧ (pushFactCheck d s).tq = s.tq ∧
          (pushFactCheck d s).busy = s.busy) ∧
    (∀ (α : Type) (s : SchedState α) (a b d : α), s.fq = [a, b] →
        a ≠ b → a ≠ d → a ∉ s.tq →
        a ∉ (onFactCheck d s).1.fq ∧ a ∉ (onFactCheck d s).1.tq ∧
          ∀ k : TaskKind, (onFactCheck d s).2 ≠ some (k, a)) ∧
    (∀ (id : Str) (env : FCEnv) (m : WMsg), m ∈ runFactCheckTask id env →
        m.taskId = some id) ∧
    (∀ (α : Type) (s : SchedState α) (d : α),
        (pushTranscribe d s).tq = s.tq ++ [d]) ∧
    (∀ (α : Type) (s : SchedState α),
        (processQueue s).1.tq = s.tq ∨
          ∃ d, s.tq = d :: (processQueue s).1.tq ∧
            (processQueue s).2 = some (TaskKind.transcribe, d)) := by
  refine ⟨?_, ?_, ?_, ?_, ?_, ?_⟩
  · intro α c hc
    exact (reach_inv hc).2.2
  · intro α s a b d hfq
    refine ⟨?_, rfl, rfl⟩
    simp [pushFactCheck, hfq, MAX_FACT_CHECK_QUEUE_SIZE]
  · intro α s a b d hfq hab had hatq
    have hpfq : (pushFactCheck d s).fq = [b, d] := by
      simp [pushFactCheck, hfq, MAX_FACT_CHECK_QUEUE_SIZE]
    have hptq : (pushFactCheck d s).tq = s.tq := rfl
    have hnf := processQueue_no_foreign (pushFactCheck d s) a
      (by rw [hptq]; exact hatq)
      (by rw [hpfq]; simp [hab, had])
    exact ⟨hnf.2.1, hnf.1, hnf.2.2⟩
  · intro id env m hm
    exact runFactCheckTask_taskId id env m hm
  · intro α s d
    rfl
  · intro α s
    exact processQueue_tq s

/-- Witness for C2 at concrete scheduler states and a concrete task run. -/
theorem C2_bounded_leaky_queue_witness :
    (initConfig Nat).st.fq.length ≤ MAX_FACT_CHECK_QUEUE_SIZE ∧
    ((pushFactCheck 30 (SchedState.mk ([] : List Nat) [10, 20] true)).fq = [20, 30] ∧
      (pushFactCheck 30 (SchedState.mk ([] : List Nat) [10, 20] true)).tq = [] ∧
      (pushFactCheck 30 (SchedState.mk ([] : List Nat) [10, 20] true)).busy = true) ∧
    (10 ∉ (onFactCheck 30 (SchedState.mk ([] : List Nat) [10, 20] false)).1.fq ∧
      10 ∉ (onFactCheck 30 (SchedState.mk ([] : List Nat) [10, 20] false)).1.tq ∧
      ∀ k : TaskKind,
        (onFactCheck 30 (SchedState.mk ([] : List Nat) [10, 20] false)).2 ≠ some (k, 10)) ∧
    (WMsg.factCheckStream (str "a1") (str "NOT_A_CLAIM") true).taskId = some (str "a1") ∧
    (pushTranscribe 7 (SchedState.mk [1] ([] : List Nat) false)).tq = [1, 7] ∧
    ((processQueue (SchedState.mk [1] ([] : List Nat) false)).1.tq = [1] ∨
      ∃ d, [1] = d :: (processQueue (SchedState.mk [1] ([] : List Nat) false)).1.tq ∧
        (processQueue (SchedState.mk [1] ([] : List Nat) false)).2 =
          some (TaskKind.transcribe, d)) :=
  ⟨C2_bounded_leaky_queue.1 Nat (initConfig Nat) Reach.init,
   C2_bounded_leaky_queue.2.1 Nat (SchedState.mk [] [10, 20] true) 10 20 30 rfl,
   C2_bounded_leaky_queue.2.2.1 Nat (SchedState.mk [] [10, 20] false) 10 20 30 rfl
     (by decide) (by decide) (by simp),
   C2_bounded_leaky_queue.2.2.2.1 (str "a1")
     (FCEnv.mk (Except.ok (str "NO")) [] none)
     (WMsg.factCheckStream (str "a1") (str "NOT_A_CLAIM") true) (by decide),
   C2_bounded_leaky_queue.2.2.2.2.1 Nat (SchedState.mk [1] [] false) 7,
   C2_bounded_leaky_queue.2.2.2.2.2 Nat (SchedState.mk [1] [] false)⟩

/-- C3: a fact-check task that runs to completion without error reduces
the classification result to a boolean by a case-insensitive substring
match on YES; if that boolean is false, exactly one fragment is emitted —
terminal, with literal text NOT_A_CLAIM — and the verification step never
runs (the emissions are the same whatever the generation would do); if it
is true, the emissions are the non-terminal fragments whose text is the
cumulative accumulator of all tokens so far (each supersedes the previous),
followed by exactly one terminal fragment carrying the full accumulator. -/
theorem C3_fact_check_emissions (id : Str) (env : FCEnv) (c : Str)
    (hc : env.classification = Except.ok c) (hg : env.genError = none) :
    (isClaimText c = true ↔ ∃ a b, upperL c = a ++ str "YES" ++ b) ∧
    (isClaimText c = false →
        ∀ (tk : List Str) (ge : Option Str),
          runFactCheckTask id (FCEnv.mk env.classification tk ge) =
            [WMsg.factCheckStream id (str "NOT_A_CLAIM") true]) ∧
    (isClaimText c = true →
        (runFactCheckTask id env).length = env.tokens.length + 1 ∧
        (∀ k, k < env.tokens.length →
            (runFactCheckTask id env)[k]? =
              some (WMsg.factCheckStream id
                (fullResponse (env.tokens.take (k + 1))) false)) ∧
        (runFactCheckTask id env)[env.tokens.length]? =
          some (WMsg.factCheckStream id (fullResponse env.tokens) true)) := by
  have hstream : (streamMsgs id env.tokens).length = env.tokens.length :=
    streamAux_length id [] env.tokens
  refine ⟨?_, ?_, ?_⟩
  · exact containsSub_iff (upperL c) (str "YES")
  · intro hfalse tk ge
    simp [runFactCheckTask, hc, hfalse]
  · intro htrue
    have hrun : runFactCheckTask id env =
        streamMsgs id env.tokens ++
          [WMsg.factCheckStream id (fullResponse env.tokens) true] := by
      simp [runFactCheckTask, hc, htrue, hg]
    refine ⟨?_, ?_, ?_⟩
    · rw [hrun, List.length_append, hstream]
      rfl
    · intro k hk
      rw [hrun, List.getElem?_append_left (by rw [hstream]; exact hk)]
      exact streamAux_getElem id [] env.tokens k hk
    · rw [hrun, List.getElem?_append_right (by rw [hstream]), hstream]
      simp

/-- Witness for C3: a concrete claim-classified run with two tokens, and a
concrete non-claim short-circuit. -/
theorem C3_fact_check_emissions_witness :
    (runFactCheckTask (str "t1")
        (FCEnv.mk (Except.ok (str " Yes.")) [str "[True] ", str "ok."] none)).length =
      2 + 1 ∧
    runFactCheckTask (str "t2")
        (FCEnv.mk (Except.ok (str "No.")) [str "junk"] (some (str "junkerr"))) =
      [WMsg.factCheckStream (str "t2") (str "NOT_A_CLAIM") true] :=
  ⟨((C3_fact_check_emissions (str "t1")
      (FCEnv.mk (Except.ok (str " Yes.")) [str "[True] ", str "ok."] none)
      (str " Yes.") rfl rfl).2.2 (by decide)).1,
   (C3_fact_check_emissions (str "t2")
      (FCEnv.mk (Except.ok (str "No.")) [] none)
      (str "No.") rfl rfl).2.1 (by decide) [str "junk"] (some (str "junkerr"))⟩

/-- C6: a task that throws yields exactly one error event tagged with the
task id and the task-kind label, no terminal fragment for that id, the
scheduler clears busy and the scheduled drain starts the next queued task
if any; on the consumer, an error event carrying a task id sets that
record's verdict to Unverified with an Error-prefixed explanation and
clears isChecking, independent of any prior verdict. -/
theorem C6_per_task_error_path :
    (∀ (id : Str) (env : FCEnv) (m : Str),
        env.classification = Except.error m →
        runFactCheckTask id env = [WMsg.errorTask id TaskKind.factCheck m]) ∧
    (∀ (id : Str) (env : FCEnv) (c m : Str),
        env.classification = Except.ok c → isClaimText c = true →
        env.genError = some m →
        runFactCheckTask id env =
          streamMsgs id env.tokens ++
            [WMsg.errorTask id TaskKind.factCheck m]) ∧
    (∀ (id : Str) (env : FCEnv), env.throws = true →
        ∀ w ∈ runFactCheckTask id env, w.isTerminalFor id = false) ∧
    (∀ (id speaker m : Str),
        runTranscribeTask id speaker (TEnv.mk (Except.error m)) =
          [WMsg.errorTask id TaskKind.transcribe m]) ∧
    (TaskKind.transcribe.label = str "transcribe" ∧
      TaskKind.factCheck.label = str "fact-check") ∧
    (∀ (α : Type) (s : SchedState α),
        ((finishTask s).2 = none → (finishTask s).1 = { s with busy := false }) ∧
        (s.tq ≠ [] ∨ s.fq ≠ [] → (finishTask s).2.isSome = true)) ∧
    (∀ (id m : Str) (prev : List Transcript) (k : Nat) (t : Transcript),
        prev[k]? = some t → t.id = id →
        (applyWorkerError id m prev)[k]? =
          some { t with isChecking := false,
                        factCheck :=
                          some ⟨Verdict.Unverified, str "Error: " ++ m⟩ }) := by
  refine ⟨?_, ?_, ?_, ?_, ⟨rfl, rfl⟩, ?_, ?_⟩
  · intro id env m hm
    simp [runFactCheckTask, hm]
  · intro id env c m hcl htrue hge
    simp [runFactCheckTask, hcl, htrue, hge, streamMsgs]
  · intro id env hthrow w hw
    unfold FCEnv.throws at hthrow
    unfold runFactCheckTask at hw
    match hcl : env.classification with
    | Except.error e =>
      rw [hcl] at hw
      simp only [List.mem_singleton] at hw
      subst hw
      rfl
    | Except.ok c =>
      rw [hcl] at hthrow hw
      simp only [Bool.and_eq_true] at hthrow
      simp only [hthrow.1, if_true] at hw
      match hge : env.genError with
      | none => rw [hge] at hthrow; simp at hthrow
      | some e =>
        rw [hge] at hw
        rcases List.mem_append.mp hw with h | h
        · exact streamAux_not_terminal id id [] env.tokens w h
        · simp only [List.mem_singleton] at h
          subst h
          rfl
  · intro id speaker m
    rfl
  · intro α s
    constructor
    · intro h
      exact processQueue_no_start { s with busy := false } h
    · intro h
      unfold finishTask processQueue
      rcases h with h | h
      · match htq : s.tq with
        | [] => exact absurd htq h
        | d :: rest => simp
      · match htq : s.tq with
        | d :: rest => simp
        | [] =>
          match hfq : s.fq with
          | [] => exact absurd hfq h
          | d :: rest => simp
  · intro id m prev k t h heq
    exact mapUpd_getElem_eq _ id prev k t h heq

/-- Witness for C6 at concrete tasks, scheduler states and transcripts. -/
theorem C6_per_task_error_path_witness :
    runFactCheckTask (str "e1") (FCEnv.mk (Except.error (str "boom")) [] none) =
      [WMsg.errorTask (str "e1") TaskKind.factCheck (str "boom")] ∧
    runFactCheckTask (str "e2")
        (FCEnv.mk (Except.ok (str "YES")) [str "part"] (some (str "crash"))) =
      streamMsgs (str "e2") [str "part"] ++
        [WMsg.errorTask (str "e2") TaskKind.factCheck (str "crash")] ∧
    (WMsg.errorTask (str "e2") TaskKind.factCheck (str "crash")).isTerminalFor
        (str "e2") = false ∧
    runTranscribeTask (str "e3") (str "A") (TEnv.mk (Except.error (str "bad"))) =
      [WMsg.errorTask (str "e3") TaskKind.transcribe (str "bad")] ∧
    (finishTask (SchedState.mk ([9] : List Nat) [] true)).2.isSome = true ∧
    (applyWorkerError (str "x") (str "oops")
        [Transcript.mk (str "x") (str "text here") Speaker.A true 3
          (some ⟨Verdict.True, str "old"⟩)])[0]? =
      some (Transcript.mk (str "x") (str "text here") Speaker.A false 3
        (some ⟨Verdict.Unverified, str "Error: " ++ str "oops"⟩)) :=
  ⟨C6_per_task_error_path.1 (str "e1")
      (FCEnv.mk (Except.error (str "boom")) [] none) (str "boom") rfl,
   C6_per_task_error_path.2.1 (str "e2")
      (FCEnv.mk (Except.ok (str "YES")) [str "part"] (some (str "crash")))
      (str "YES") (str "crash") rfl (by decide) rfl,
   C6_per_task_error_path.2.2.1 (str "e2")
      (FCEnv.mk (Except.ok (str "YES")) [str "part"] (some (str "crash")))
      (by decide) (WMsg.errorTask (str "e2") TaskKind.factCheck (str "crash"))
      (by decide),
   C6_per_task_error_path.2.2.2.1 (str "e3") (str "A") (str "bad"),
   (C6_per_task_error_path.2.2.2.2.2.1 Nat (SchedState.mk [9] [] true)).2
      (Or.inl (by decide)),
   C6_per_task_error_path.2.2.2.2.2.2 (str "x") (str "oops")
      [Transcript.mk (str "x") (str "text here") Speaker.A true 3
        (some ⟨Verdict.True, str "old"⟩)] 0
      (Transcript.mk (str "x") (str "text here") Speaker.A true 3
        (some ⟨Verdict.True, str "old"⟩)) rfl rfl⟩

/-- C7 (amended): for each model kind the first acquire triggers
construction and stores the in-flight result; every subsequent acquire
while construction is pending or complete returns that same in-flight
result or instance without triggering a second construction; a
construction failure surfaces to all waiters through the stored rejected
promise, but the handle is not reset — the rejected promise stays cached,
later acquires return the same failed result, and no fresh construction is
ever started. -/
theorem C7_memoized_handle :
    (∀ h : Handle, h.inst = none → h.prom = none →
        acquire h =
          (Handle.mk none (some h.nextCtor) (h.nextCtor + 1), h.nextCtor)) ∧
    (∀ (h : Handle) (p : Nat), h.inst = none → h.prom = some p →
        acquire h = (h, p)) ∧
    (∀ (h : Handle) (i : Nat), h.inst = some i → acquire h = (h, i)) ∧
    (∀ (h : Handle) (p : Nat) (u : Unit), h.prom = some p →
        settle h (Except.ok u) = { h with inst := some p }) ∧
    (∀ (h : Handle) (m : Str), settle h (Except.error m) = h) := by
  refine ⟨?_, ?_, ?_, ?_, ?_⟩
  · intro h h1 h2
    simp [acquire, h1, h2]
  · intro h p h1 h2
    simp [acquire, h1, h2]
  · intro h i h1
    simp [acquire, h1]
  · intro h p u hp
    simp [settle, hp]
  · intro h m
    unfold settle
    match hp : h.prom with
    | some p => rfl
    | none => rfl

/-- Witness for C7 at concrete handles. -/
theorem C7_memoized_handle_witness :
    acquire (Handle.mk none none 0) = (Handle.mk none (some 0) 1, 0) ∧
    acquire (Handle.mk none (some 0) 1) = (Handle.mk none (some 0) 1, 0) ∧
    acquire (Handle.mk (some 0) (some 0) 1) = (Handle.mk (some 0) (some 0) 1, 0) ∧
    settle (Handle.mk none (some 0) 1) (Except.ok ()) = Handle.mk (some 0) (some 0) 1 ∧
    settle (Handle.mk none (some 0) 1) (Except.error (str "boom")) =
      Handle.mk none (some 0) 1 :=
  ⟨C7_memoized_handle.1 (Handle.mk none none 0) rfl rfl,
   C7_memoized_handle.2.1 (Handle.mk none (some 0) 1) 0 rfl rfl,
   C7_memoized_handle.2.2.1 (Handle.mk (some 0) (some 0) 1) 0 rfl,
   C7_memoized_handle.2.2.2.1 (Handle.mk none (some 0) 1) 0 () rfl,
   C7_memoized_handle.2.2.2.2 (Handle.mk none (some 0) 1) (str "boom")⟩

/-- Counterexample to C7 as stated: after a failed construction the handle
is not reset to Uninitialized — the promise field still holds the rejected
promise, a later acquire returns that same promise, and no fresh
construction starts (the construction counter stays at 1). -/
theorem C7_no_reset_counterexample :
    (settle (acquire Handle.start).1 (Except.error (str "boom"))).prom ≠ none ∧
    acquire (settle (acquire Handle.start).1 (Except.error (str "boom"))) =
      (settle (acquire Handle.start).1 (Except.error (str "boom")), 0) ∧
    (acquire (settle (acquire Handle.start).1
        (Except.error (str "boom")))).1.nextCtor = 1 := by
  decide

/-- C8 (amended): the progress callback forwards only numeric progress
events, each mapped to its numeric value tagged with the model kind being
loaded; `initiate` and `done` events (and every other status) produce no
emission at all. -/
theorem C8_progress_forwarding :
    (∀ (m : MKind) (v : ℚ),
        reportProgress m (RawProgress.mk (str "progress") v) =
          some (WMsg.progress m v)) ∧
    (∀ (m : MKind) (e : RawProgress), e.status ≠ str "progress" →
        reportProgress m e = none) := by
  constructor
  · intro m v
    rfl
  · intro m e h
    simp [reportProgress, h]

/-- Witness for C8 at a concrete numeric event and a concrete done event. -/
theorem C8_progress_forwarding_witness :
    reportProgress MKind.stt (RawProgress.mk (str "progress") (1/2)) =
      some (WMsg.progress MKind.stt (1/2)) ∧
    reportProgress MKind.llm (RawProgress.mk (str "done") 100) = none :=
  ⟨C8_progress_forwarding.1 MKind.stt (1/2),
   C8_progress_forwarding.2 MKind.llm (RawProgress.mk (str "done") 100)
     (by decide)⟩

/-- Counterexample to C8 as stated: an `initiate` event yields no
normalized percent-0 emission and a `done` event yields no percent-100
emission, unlike the normalization the claim describes (shown against the
spec-modelled normalizer). -/
theorem C8_no_normalization_counterexample :
    reportProgress MKind.stt (RawProgress.mk (str "initiate") 37) = none ∧
    reportProgressSpec MKind.stt (RawProgress.mk (str "initiate") 37) =
      some (WMsg.progress MKind.stt 0) ∧
    reportProgress MKind.llm (RawProgress.mk (str "done") 37) = none ∧
    reportProgressSpec MKind.llm (RawProgress.mk (str "done") 37) =
      some (WMsg.progress MKind.llm 100) := by
  decide

theorem matchVerdictToken_sound (s : Str) (v : Verdict) (r : Str)
    (h : matchVerdictToken s = some (v, r)) :
    ∃ tok, s = tok ++ r ∧ lowerL tok = verdictTokenChars v ∧
      v ≠ Verdict.NOT_A_CLAIM := by
  unfold matchVerdictToken at h
  by_cases h1 : lowerL (s.take 4) = str "true"
  · rw [if_pos h1] at h
    injection h with h'
    injection h' with hv hr
    subst hv
    subst hr
    exact ⟨s.take 4, (List.take_append_drop 4 s).symm, h1, by simp⟩
  · rw [if_neg h1] at h
    by_cases h2 : lowerL (s.take 5) = str "false"
    · rw [if_pos h2] at h
      injection h with h'
      injection h' with hv hr
      subst hv
      subst hr
      exact ⟨s.take 5, (List.take_append_drop 5 s).symm, h2, by simp⟩
    · rw [if_neg h2] at h
      by_cases h3 : lowerL (s.take 10) = str "unverified"
      · rw [if_pos h3] at h
        injection h with h'
        injection h' with hv hr
        subst hv
        subst hr
        exact ⟨s.take 10, (List.take_append_drop 10 s).symm, h3, by simp⟩
      · rw [if_neg h3] at h
        cases h

theorem tryHere_ne_nac (s : Str) (v : Verdict) (r : Str)
    (h : tryHere s = some (v, r)) : v ≠ Verdict.NOT_A_CLAIM := by
  cases s with
  | nil => simp [tryHere] at h
  | cons c rest =>
    simp only [tryHere] at h
    by_cases hc : c = '['
    · rw [if_pos hc] at h
      match hmt : matchVerdictToken rest with
      | none =>
        rw [hmt] at h
        simp at h
      | some p =>
        obtain ⟨v', r'⟩ := p
        rw [hmt] at h
        have h2 : some (v', afterToken r') = some (v, r) := h
        injection h2 with h'
        injection h' with hv hr
        subst hv
        obtain ⟨tok, -, -, hne⟩ := matchVerdictToken_sound rest v' r' hmt
        exact hne
    · rw [if_neg hc] at h
      match hmt : matchVerdictToken (c :: rest) with
      | none =>
        rw [hmt] at h
        simp at h
      | some p =>
        obtain ⟨v', r'⟩ := p
        rw [hmt] at h
        have h2 : some (v', afterToken r') = some (v, r) := h
        injection h2 with h'
        injection h' with hv hr
        subst hv
        obtain ⟨tok, -, -, hne⟩ := matchVerdictToken_sound (c :: rest) v' r' hmt
        exact hne

theorem verdictSearch_ne_nac (s : Str) (v : Verdict) (r : Str)
    (h : verdictSearch s = some (v, r)) : v ≠ Verdict.NOT_A_CLAIM := by
  induction s with
  | nil => simp [verdictSearch] at h
  | cons c rest ih =>
    unfold verdictSearch at h
    match hth : tryHere (c :: rest) with
    | some p =>
      obtain ⟨v', r'⟩ := p
      rw [hth] at h
      have h2 : some (v', r') = some (v, r) := h
      injection h2 with h'
      injection h' with hv hr
      subst hv
      exact tryHere_ne_nac (c :: rest) v' r' hth
    | none =>
      rw [hth] at h
      exact ih h

theorem applyFragment_nac (result : Str) (isDone : Bool) (t : Transcript)
    (h1 : containsSub (upperL (trimL result)) (str "NOT_A_CLAIM") = true)
    (h2 : (trimL result).length < 20) :
    applyFragment result isDone t =
      { t with isChecking := !isDone,
               factCheck :=
                 if isDone then some ⟨Verdict.NOT_A_CLAIM, []⟩ else none } := by
  have hcond : (containsSub (upperL (trimL result)) (str "NOT_A_CLAIM") &&
      decide ((trimL result).length < 20)) = true := by
    rw [h1]
    simp [h2]
  simp only [applyFragment, hcond, if_true]

theorem applyFragment_structured (result : Str) (isDone : Bool)
    (t : Transcript) (v : Verdict) (rest : Str)
    (hnac : (containsSub (upperL (trimL result)) (str "NOT_A_CLAIM") &&
        decide ((trimL result).length < 20)) = false)
    (hvs : verdictSearch result = some (v, rest)) :
    applyFragment result isDone t =
      { t with isChecking := !isDone,
               factCheck := some ⟨v,
                 if trimL rest = [] then str "Analyzing..."
                 else trimL rest⟩ } := by
  simp only [applyFragment, hnac, Bool.false_eq_true, if_false, hvs]

theorem applyFragment_fallback (result : Str) (isDone : Bool) (t : Transcript)
    (hnac : (containsSub (upperL (trimL result)) (str "NOT_A_CLAIM") &&
        decide ((trimL result).length < 20)) = false)
    (hvs : verdictSearch result = none) :
    applyFragment result isDone t =
      { t with isChecking := !isDone,
               factCheck := some ⟨Verdict.Unverified, result⟩ } := by
  simp only [applyFragment, hnac, Bool.false_eq_true, if_false, hvs]

/-- C4: for a fragment that fails the NOT_A_CLAIM check, a structured
match — an optional leading bracket, one of the tokens
True/False/Unverified case-insensitively, an optional closing bracket,
separator characters, then the remainder — sets the verdict to the
capitalized token with the trimmed remainder as explanation, substituting
"Analyzing..." when the captured explanation is empty (also on terminal
fragments); without a structured match the fallback is verdict Unverified
with the full fragment text as explanation; the documented examples behave
as stated. -/
theorem C4_structured_verdict_merge :
    (∀ (result : Str) (isDone : Bool) (t : Transcript) (v : Verdict)
        (rest : Str),
        (containsSub (upperL (trimL result)) (str "NOT_A_CLAIM") &&
            decide ((trimL result).length < 20)) = false →
        verdictSearch result = some (v, rest) →
        applyFragment result isDone t =
          { t with isChecking := !isDone,
                   factCheck := some ⟨v,
                     if trimL rest = [] then str "Analyzing..."
                     else trimL rest⟩ }) ∧
    (∀ (result : Str) (isDone : Bool) (t : Transcript),
        (containsSub (upperL (trimL result)) (str "NOT_A_CLAIM") &&
            decide ((trimL result).length < 20)) = false →
        verdictSearch result = none →
        applyFragment result isDone t =
          { t with isChecking := !isDone,
                   factCheck := some ⟨Verdict.Unverified, result⟩ }) ∧
    (∀ (s : Str) (v : Verdict) (r : Str), matchVerdictToken s = some (v, r) →
        ∃ tok, s = tok ++ r ∧ lowerL tok = verdictTokenChars v) ∧
    (∀ t : Transcript, applyFragment (str "[True] | Water is wet.") true t =
        { t with isChecking := false,
                 factCheck := some ⟨Verdict.True, str "Water is wet."⟩ }) ∧
    (∀ t : Transcript, applyFragment (str "False: That is not right.") true t =
        { t with isChecking := false,
                 factCheck := some ⟨Verdict.False, str "That is not right."⟩ }) ∧
    (∀ t : Transcript, applyFragment (str "Completely weird response") true t =
        { t with isChecking := false,
                 factCheck := some ⟨Verdict.Unverified,
                   str "Completely weird response"⟩ }) ∧
    (∀ t : Transcript, applyFragment (str "[Unverified]") true t =
        { t with isChecking := false,
                 factCheck := some ⟨Verdict.Unverified,
                   str "Analyzing..."⟩ }) := by
  refine ⟨?_, ?_, ?_, ?_, ?_, ?_, ?_⟩
  · intro result isDone t v rest hnac hvs
    exact applyFragment_structured result isDone t v rest hnac hvs
  · intro result isDone t hnac hvs
    exact applyFragment_fallback result isDone t hnac hvs
  · intro s v r h
    obtain ⟨tok, h1, h2, -⟩ := matchVerdictToken_sound s v r h
    exact ⟨tok, h1, h2⟩
  · intro t
    rw [applyFragment_structured (str "[True] | Water is wet.") true t
      Verdict.True (str "Water is wet.") (by decide) (by decide)]
    rw [if_neg (by decide), show trimL (str "Water is wet.") =
      str "Water is wet." from by decide]
    rfl
  · intro t
    rw [applyFragment_structured (str "False: That is not right.") true t
      Verdict.False (str "That is not right.") (by decide) (by decide)]
    rw [if_neg (by decide), show trimL (str "That is not right.") =
      str "That is not right." from by decide]
    rfl
  · intro t
    exact applyFragment_fallback (str "Completely weird response") true t
      (by decide) (by decide)
  · intro t
    rw [applyFragment_structured (str "[Unverified]") true t
      Verdict.Unverified [] (by decide) (by decide)]
    rw [if_pos (by decide)]
    rfl

/-- Witness for C4 at a concrete record and concrete fragments. -/
theorem C4_structured_verdict_merge_witness :
    applyFragment (str "False: bad.") false
        (Transcript.mk (str "w") (str "witness text") Speaker.A true 0 none) =
      Transcript.mk (str "w") (str "witness text") Speaker.A true 0
        (some ⟨Verdict.False, str "bad."⟩) ∧
    applyFragment (str "nothing to see") true
        (Transcript.mk (str "w") (str "witness text") Speaker.A true 0 none) =
      Transcript.mk (str "w") (str "witness text") Speaker.A false 0
        (some ⟨Verdict.Unverified, str "nothing to see"⟩) ∧
    applyFragment (str "[True] | Water is wet.") true
        (Transcript.mk (str "w") (str "witness text") Speaker.A true 0 none) =
      Transcript.mk (str "w") (str "witness text") Speaker.A false 0
        (some ⟨Verdict.True, str "Water is wet."⟩) :=
  ⟨C4_structured_verdict_merge.1 (str "False: bad.") false
      (Transcript.mk (str "w") (str "witness text") Speaker.A true 0 none)
      Verdict.False (str "bad.") (by decide) (by decide),
   C4_structured_verdict_merge.2.1 (str "nothing to see") true
      (Transcript.mk (str "w") (str "witness text") Speaker.A true 0 none)
      (by decide) (by decide),
   C4_structured_verdict_merge.2.2.2.1
      (Transcript.mk (str "w") (str "witness text") Speaker.A true 0 none)⟩

/-- C5: a fragment whose text, case-folded, contains NOT_A_CLAIM with
trimmed length below 20 characters commits verdict NotAClaim with empty
explanation only once isDone is true; while isDone is false the verdict is
withheld (factCheck unset) and isChecking stays true; the rule takes
priority over the structured match; a fragment containing NOT_A_CLAIM
whose trimmed length is 20 or more does not trigger it. -/
theorem C5_not_a_claim_rule :
    (∀ (result : Str) (isDone : Bool) (t : Transcript),
        containsSub (upperL (trimL result)) (str "NOT_A_CLAIM") = true →
        (trimL result).length < 20 →
        applyFragment result isDone t =
          { t with isChecking := !isDone,
                   factCheck :=
                     if isDone then some ⟨Verdict.NOT_A_CLAIM, []⟩
                     else none }) ∧
    (∀ (result : Str) (isDone : Bool) (t : Transcript),
        containsSub (upperL (trimL result)) (str "NOT_A_CLAIM") = true →
        ¬ (trimL result).length < 20 →
        ∃ fc : FactCheckVerdict,
          (applyFragment result isDone t).factCheck = some fc ∧
            fc.verdict ≠ Verdict.NOT_A_CLAIM) ∧
    (∀ t : Transcript, applyFragment (str "NOT_A_CLAIM") true t =
        { t with isChecking := false,
                 factCheck := some ⟨Verdict.NOT_A_CLAIM, []⟩ }) ∧
    (∀ t : Transcript, applyFragment (str "NOT_A_CLAIM") false t =
        { t with isChecking := true, factCheck := none }) ∧
    (∀ t : Transcript, applyFragment (str "True NOT_A_CLAIM") true t =
        { t with isChecking := false,
                 factCheck := some ⟨Verdict.NOT_A_CLAIM, []⟩ }) := by
  refine ⟨?_, ?_, ?_, ?_, ?_⟩
  · intro result isDone t h1 h2
    exact applyFragment_nac result isDone t h1 h2
  · intro result isDone t h1 h2
    have hcond : (containsSub (upperL (trimL result)) (str "NOT_A_CLAIM") &&
        decide ((trimL result).length < 20)) = false := by
      simp [h2]
    match hvs : verdictSearch result with
    | some p =>
      obtain ⟨v, rest⟩ := p
      rw [applyFragment_structured result isDone t v rest hcond hvs]
      exact ⟨_, rfl, verdictSearch_ne_nac result v rest hvs⟩
    | none =>
      rw [applyFragment_fallback result isDone t hcond hvs]
      exact ⟨_, rfl, by simp⟩
  · intro t
    rw [applyFragment_nac (str "NOT_A_CLAIM") true t (by decide) (by decide)]
    rfl
  · intro t
    rw [applyFragment_nac (str "NOT_A_CLAIM") false t (by decide) (by decide)]
    rfl
  · intro t
    rw [applyFragment_nac (str "True NOT_A_CLAIM") true t (by decide)
      (by decide)]
    rfl

/-- Witness for C5 at a concrete record: commit on the terminal fragment,
withhold before it, and no NotAClaim verdict for a 20-plus-character text
containing the literal. -/
theorem C5_not_a_claim_rule_witness :
    applyFragment (str "NOT_A_CLAIM") true
        (Transcript.mk (str "n") (str "claim text") Speaker.B true 1 none) =
      Transcript.mk (str "n") (str "claim text") Speaker.B false 1
        (some ⟨Verdict.NOT_A_CLAIM, []⟩) ∧
    applyFragment (str "NOT_A_CLAIM") false
        (Transcript.mk (str "n") (str "claim text") Speaker.B true 1
          (some ⟨Verdict.True, str "old"⟩)) =
      Transcript.mk (str "n") (str "claim text") Speaker.B true 1 none :=
  ⟨C5_not_a_claim_rule.1 (str "NOT_A_CLAIM") true
      (Transcript.mk (str "n") (str "claim text") Speaker.B true 1 none)
      (by decide) (by decide),
   C5_not_a_claim_rule.1 (str "NOT_A_CLAIM") false
      (Transcript.mk (str "n") (str "claim text") Speaker.B true 1
        (some ⟨Verdict.True, str "old"⟩))
      (by decide) (by decide)⟩

/-- C9: a completed transcription with fewer than 3 whitespace-delimited
words creates no transcript record and submits no fact-check task; one
with at least 3 words appends exactly one record — checking, carrying the
task's id — and submits exactly one fact-check task with the same text and
id. -/
theorem C9_three_word_gate (text id : Str) (speaker : Speaker) (now : Nat)
    (prev : List Transcript) :
    (specWordCount text < 3 →
        handleTranscription text id speaker now prev = (prev, none)) ∧
    (3 ≤ specWordCount text →
        handleTranscription text id speaker now prev =
          (prev ++ [Transcript.mk id text speaker true now none],
            some (text, id))) := by
  constructor
  · intro h
    unfold handleTranscription
    rw [if_pos ((gate_iff text).mpr h)]
  · intro h
    unfold handleTranscription
    rw [if_neg (fun hw => absurd ((gate_iff text).mp hw) (by omega))]

/-- Witness for C9 on the documented 2-word and 4-word transcriptions. -/
theorem C9_three_word_gate_witness :
    handleTranscription (str "Too short") (str "id1") Speaker.A 0 [] =
      ([], none) ∧
    handleTranscription (str "This is long enough") (str "id2") Speaker.B 7 [] =
      ([Transcript.mk (str "id2") (str "This is long enough") Speaker.B true 7
          none],
        some (str "This is long enough", str "id2")) :=
  ⟨(C9_three_word_gate (str "Too short") (str "id1") Speaker.A 0 []).1
      (by decide),
   (C9_three_word_gate (str "This is long enough") (str "id2") Speaker.B 7
      []).2 (by decide)⟩

/-- C10: applying a fact-check fragment or a per-task error event to the
transcript list preserves its length, returns every record whose id
differs from the event's task id unchanged in place, and leaves the whole
list unchanged when no record carries that id. -/
theorem C10_id_partitioned_frame :
    (∀ (result id : Str) (isDone : Bool) (prev : List Transcript),
        (handleFactCheckStream result id isDone prev).length = prev.length) ∧
    (∀ (result id : Str) (isDone : Bool) (prev : List Transcript) (k : Nat)
        (t : Transcript), prev[k]? = some t → ¬ t.id = id →
        (handleFactCheckStream result id isDone prev)[k]? = some t) ∧
    (∀ (result id : Str) (isDone : Bool) (prev : List Transcript),
        (∀ t ∈ prev, ¬ t.id = id) →
        handleFactCheckStream result id isDone prev = prev) ∧
    (∀ (id m : Str) (prev : List Transcript),
        (applyWorkerError id m prev).length = prev.length) ∧
    (∀ (id m : Str) (prev : List Transcript) (k : Nat) (t : Transcript),
        prev[k]? = some t → ¬ t.id = id →
        (applyWorkerError id m prev)[k]? = some t) ∧
    (∀ (id m : Str) (prev : List Transcript),
        (∀ t ∈ prev, ¬ t.id = id) → applyWorkerError id m prev = prev) := by
  refine ⟨?_, ?_, ?_, ?_, ?_, ?_⟩
  · intro result id isDone prev
    simp [handleFactCheckStream]
  · intro result id isDone prev k t h hne
    exact mapUpd_getElem_ne _ id prev k t h hne
  · intro result id isDone prev h
    exact mapUpd_id _ id prev h
  · intro id m prev
    simp [applyWorkerError]
  · intro id m prev k t h hne
    exact mapUpd_getElem_ne _ id prev k t h hne
  · intro id m prev h
    exact mapUpd_id _ id prev h

/-- Witness for C10 on a concrete two-record list. -/
theorem C10_id_partitioned_frame_witness :
    (handleFactCheckStream (str "[True] ok") (str "b") true
        [Transcript.mk (str "a") (str "first text") Speaker.A false 0 none,
         Transcript.mk (str "b") (str "second text") Speaker.B true 1 none])[0]? =
      some (Transcript.mk (str "a") (str "first text") Speaker.A false 0 none) ∧
    handleFactCheckStream (str "[True] ok") (str "zzz") true
        [Transcript.mk (str "a") (str "first text") Speaker.A false 0 none] =
      [Transcript.mk (str "a") (str "first text") Speaker.A false 0 none] ∧
    (applyWorkerError (str "b") (str "oops")
        [Transcript.mk (str "a") (str "first text") Speaker.A false 0 none])[0]? =
      some (Transcript.mk (str "a") (str "first text") Speaker.A false 0 none) :=
  ⟨C10_id_partitioned_frame.2.1 (str "[True] ok") (str "b") true
      [Transcript.mk (str "a") (str "first text") Speaker.A false 0 none,
       Transcript.mk (str "b") (str "second text") Speaker.B true 1 none] 0
      (Transcript.mk (str "a") (str "first text") Speaker.A false 0 none) rfl
      (by decide),
   C10_id_partitioned_frame.2.2.1 (str "[True] ok") (str "zzz") true
      [Transcript.mk (str "a") (str "first text") Speaker.A false 0 none]
      (by decide),
   C10_id_partitioned_frame.2.2.2.2.1 (str "b") (str "oops")
      [Transcript.mk (str "a") (str "first text") Speaker.A false 0 none] 0
      (Transcript.mk (str "a") (str "first text") Speaker.A false 0 none) rfl
      (by decide)⟩

end DebateLens
